import Mathlib

/-!
Verification of the client-side resilience layer of the glowing-couscous
single-page application: the HTTP request layer with timeout/retry/backoff
(`src/convex.ts`, `HttpClient`), the SSE stream readers
(`src/convex.ts` `streamChat`, `src/hooks/useSSE.ts`), the WebSocket
connection manager (`src/convex.ts`, `WebSocketConnectionManager`), the
onboarding poll loop (`src/components/OnboardingForm.tsx`), the
authenticated-entry routing (`src/hooks/useAstroAuth.ts`), and the network
quality heuristic (`src/components/GlassCard.tsx`, `NetworkMonitor`).

Each definition is a shallow embedding of the corresponding TypeScript
function; machine arithmetic is over `Nat`/`Int`/`Rat` (all quantities in
the source are small integers or simple decimal fractions, far from any
float-precision boundary), strings are `List Char` (the `TextDecoder`
with `stream: true` is abstracted as a split-invariant byte-to-char
decoder), and the network is abstracted as a function from attempt index
to the observable outcome of that attempt.
-/

namespace HttpApi

/-- Error classes of `src/convex.ts` (`HttpApiError` and its subclasses
`AuthenticationError`, `NetworkError`, `TimeoutError`).  The `name` field
mirrors the JavaScript class of the thrown value: every one of these is an
`instanceof HttpApiError`, and only `authenticationError` is an
`instanceof AuthenticationError`. -/
inductive ErrName where
  | httpApiError
  | authenticationError
  | networkError
  | timeoutError
deriving DecidableEq

/-- A thrown error value: its class name plus its `statusCode` field.
`AuthenticationError` carries 401, `NetworkError` carries 0, and
`TimeoutError` carries 408, exactly as the constructors in
`src/convex.ts` set them. -/
structure ThrownError where
  name : ErrName
  statusCode : Nat
deriving DecidableEq

/-- `new TimeoutError()` — statusCode 408. -/
def timeoutErr : ThrownError := ⟨ErrName.timeoutError, 408⟩

/-- `new NetworkError()` — statusCode 0. -/
def networkErr : ThrownError := ⟨ErrName.networkError, 0⟩

/-- `new HttpApiError(msg, code, response.status)` for a non-ok response. -/
def httpApiErr (status : Nat) : ThrownError := ⟨ErrName.httpApiError, status⟩

/-- `new HttpApiError('Request failed after retries', 'RETRY_EXHAUSTED')` —
default statusCode 500 (only reachable if no attempt ran). -/
def retryExhaustedErr : ThrownError := ⟨ErrName.httpApiError, 500⟩

/-- What the transport does on one attempt: the fetch resolves with a
response of the given status, or rejects with `AbortError` (the timeout
fired and aborted the controller), or rejects with any other error. -/
inductive FetchEvent where
  | response (status : Nat)
  | aborted
  | netError
deriving DecidableEq

/-- `HttpClient.fetchWithTimeout` (src/convex.ts lines 530-555): an
`AbortError` rejection becomes a `TimeoutError`, any other rejection a
`NetworkError`; a resolved response is returned with its status. -/
def fetchWithTimeout : FetchEvent → Except ThrownError Nat
  | FetchEvent.response s => Except.ok s
  | FetchEvent.aborted => Except.error timeoutErr
  | FetchEvent.netError => Except.error networkErr

/-- Result of one iteration of the `request` retry loop body: the body
either returns normally (2xx response, `response.ok`) or throws. -/
inductive AttemptOutcome where
  | ok
  | thrown (e : ThrownError)
deriving DecidableEq

/-- One iteration of the try block of `HttpClient.request` (src/convex.ts
lines 576-610): `fetchWithTimeout` errors propagate; a resolved response
with `response.ok` (status 200-299) returns, any other status throws
`HttpApiError` with that status (both the JSON and non-JSON branches do
this; responses are assumed to follow the documented envelope, so
`response.json()` itself does not throw). -/
def attemptOf (ev : FetchEvent) : AttemptOutcome :=
  match fetchWithTimeout ev with
  | Except.error e => AttemptOutcome.thrown e
  | Except.ok s =>
      if 200 ≤ s ∧ s < 300 then AttemptOutcome.ok
      else AttemptOutcome.thrown (httpApiErr s)

/-- The catch block of `HttpClient.request` (src/convex.ts lines 611-629):
an error is rethrown immediately — never retried — when it is an
`instanceof AuthenticationError`, or an `instanceof HttpApiError` whose
`statusCode` lies in [400, 500).  Note both `TimeoutError` (408) and any
429 response satisfy the second test. -/
def shouldRethrow (e : ThrownError) : Bool :=
  match e.name with
  | ErrName.authenticationError => true
  | _ => decide (400 ≤ e.statusCode ∧ e.statusCode < 500)

/-- `DEFAULT_RETRIES` (src/convex.ts line 513). -/
def DEFAULT_RETRIES : Nat := 3

/-- Backoff before the next retry: `Math.min(1000 * Math.pow(2, attempt),
10000)` (src/convex.ts line 626). -/
def httpRetryDelay (attempt : Nat) : Nat := min (1000 * 2 ^ attempt) 10000

instance : DecidableEq (Except ThrownError Unit) := fun a b =>
  match a, b with
  | Except.ok (), Except.ok () => isTrue rfl
  | Except.error e1, Except.error e2 =>
    if h : e1 = e2 then isTrue (by rw [h]) else
      isFalse (fun hc => by cases hc; exact h rfl)
  | Except.ok (), Except.error _ => isFalse (fun hc => by cases hc)
  | Except.error _, Except.ok () => isFalse (fun hc => by cases hc)

/-- Observable trace of one `request` call: how many attempts the loop
made, the backoff delays waited between them, and the final outcome. -/
structure ReqTrace where
  attempts : Nat
  delays : List Nat
  result : Except ThrownError Unit
deriving DecidableEq

/-- The retry loop of `HttpClient.request` (src/convex.ts lines 575-632):
`for (attempt = 0; attempt <= retries; attempt++)`, rethrowing
non-retryable errors, sleeping `httpRetryDelay attempt` when
`attempt < retries`, and throwing the last error after the loop.  The
loop is embedded with a fuel parameter equal to the number of remaining
iterations (`retries + 1 - attempt`), so the fuel-0 branch — the
post-loop `throw lastError || retryExhaustedErr` with no recorded error —
is unreachable from `request` below. -/
def requestGo (env : Nat → FetchEvent) (retries : Nat) :
    Nat → Nat → ReqTrace
  | 0, _ => ⟨0, [], Except.error retryExhaustedErr⟩
  | fuel + 1, attempt =>
    match attemptOf (env attempt) with
    | AttemptOutcome.ok => ⟨1, [], Except.ok ()⟩
    | AttemptOutcome.thrown e =>
      if shouldRethrow e then ⟨1, [], Except.error e⟩
      else if attempt < retries then
        ⟨(requestGo env retries fuel (attempt + 1)).attempts + 1,
          httpRetryDelay attempt :: (requestGo env retries fuel (attempt + 1)).delays,
          (requestGo env retries fuel (attempt + 1)).result⟩
      else ⟨1, [], Except.error e⟩

/-- `HttpClient.request` with retry budget `retries`, run against an
environment `env` giving the transport outcome of each attempt. -/
def request (env : Nat → FetchEvent) (retries : Nat) : ReqTrace :=
  requestGo env retries (retries + 1) 0

/-- The retryable classification named by the specification: network
failure, timeout, HTTP 5xx, or HTTP 429. -/
def specRetryable (e : ThrownError) : Prop :=
  e.name = ErrName.networkError ∨ e.name = ErrName.timeoutError ∨
    500 ≤ e.statusCode ∨ e.statusCode = 429

theorem requestGo_attempts_le (env : Nat → FetchEvent) (retries : Nat) :
    ∀ fuel attempt, (requestGo env retries fuel attempt).attempts ≤ fuel := by
  intro fuel
  induction fuel with
  | zero => intro attempt; simp [requestGo]
  | succ n ih =>
    intro attempt
    simp only [requestGo]
    cases attemptOf (env attempt) with
    | ok => simp
    | thrown e =>
      by_cases h : shouldRethrow e = true
      · simp [h]
      · by_cases h2 : attempt < retries
        · dsimp only
          rw [if_neg h, if_pos h2]
          have := ih (attempt + 1)
          dsimp only
          omega
        · simp [h, h2]

theorem requestGo_retried (env : Nat → FetchEvent) (retries : Nat) :
    ∀ d fuel attempt,
      d + 1 < (requestGo env retries fuel attempt).attempts →
      ∃ e, attemptOf (env (attempt + d)) = AttemptOutcome.thrown e ∧
        shouldRethrow e = false := by
  intro d
  induction d with
  | zero =>
    intro fuel attempt h
    match fuel with
    | 0 => simp [requestGo] at h
    | n + 1 =>
      simp only [requestGo] at h
      cases he : attemptOf (env attempt) with
      | ok => rw [he] at h; simp at h
      | thrown e =>
        rw [he] at h
        by_cases hr : shouldRethrow e = true
        · simp [hr] at h
        · exact ⟨e, by simpa using he, by simpa using hr⟩
  | succ d ih =>
    intro fuel attempt h
    match fuel with
    | 0 => simp [requestGo] at h
    | n + 1 =>
      simp only [requestGo] at h
      cases he : attemptOf (env attempt) with
      | ok => rw [he] at h; simp at h
      | thrown e =>
        rw [he] at h
        by_cases hr : shouldRethrow e = true
        · simp [hr] at h
        · by_cases h2 : attempt < retries
          · dsimp only at h
            rw [if_neg hr, if_pos h2] at h
            dsimp only at h
            have hlt : d + 1 < (requestGo env retries n (attempt + 1)).attempts := by
              omega
            have := ih n (attempt + 1) hlt
            have harith : attempt + 1 + d = attempt + (d + 1) := by omega
            rwa [harith] at this
          · simp [hr, h2] at h

theorem requestGo_all_fail (env : Nat → FetchEvent) (retries : Nat)
    (e : Nat → ThrownError)
    (henv : ∀ b, b ≤ retries → attemptOf (env b) = AttemptOutcome.thrown (e b) ∧
      shouldRethrow (e b) = false) :
    ∀ fuel attempt, attempt ≤ retries → fuel = retries + 1 - attempt →
      (requestGo env retries fuel attempt).attempts = fuel ∧
      (requestGo env retries fuel attempt).result = Except.error (e retries) := by
  intro fuel
  induction fuel with
  | zero => intro attempt h1 h2; omega
  | succ n ih =>
    intro attempt h1 h2
    obtain ⟨ha, hr⟩ := henv attempt h1
    simp only [requestGo, ha, hr, Bool.false_eq_true, if_false]
    by_cases h2' : attempt < retries
    · have hrec := ih (attempt + 1) (by omega) (by omega)
      rw [if_pos h2']
      exact ⟨by dsimp only; rw [hrec.1], by dsimp only; exact hrec.2⟩
    · have heq : attempt = retries := by omega
      subst heq
      rw [if_neg h2']
      exact ⟨by dsimp only; omega, rfl⟩

theorem requestGo_delays_cases (env : Nat → FetchEvent) (retries fuel attempt : Nat) :
    (requestGo env retries (fuel + 1) attempt).delays = [] ∨
    ((requestGo env retries (fuel + 1) attempt).delays =
        httpRetryDelay attempt :: (requestGo env retries fuel (attempt + 1)).delays ∧
      attempt < retries) := by
  simp only [requestGo]
  cases attemptOf (env attempt) with
  | ok => simp
  | thrown e =>
    by_cases hr : shouldRethrow e = true
    · simp [hr]
    · by_cases h2 : attempt < retries
      · right; simp [hr, h2]
      · left; simp [hr, h2]

theorem httpRetryDelay_mono (a : Nat) : httpRetryDelay a ≤ httpRetryDelay (a + 1) := by
  unfold httpRetryDelay
  refine min_le_min ?_ le_rfl
  refine Nat.mul_le_mul_left 1000 ?_
  exact Nat.pow_le_pow_right (by omega) (by omega)

theorem httpRetryDelay_le_cap (a : Nat) : httpRetryDelay a ≤ 10000 :=
  Nat.min_le_right _ _

theorem requestGo_delays_head (env : Nat → FetchEvent) (retries : Nat) :
    ∀ fuel attempt x l, (requestGo env retries fuel attempt).delays = x :: l →
      x = httpRetryDelay attempt := by
  intro fuel attempt x l h
  match fuel with
  | 0 => simp [requestGo] at h
  | n + 1 =>
    rcases requestGo_delays_cases env retries n attempt with hnil | ⟨hcons, _⟩
    · rw [hnil] at h; cases h
    · rw [hcons] at h
      exact (List.cons.injEq _ _ _ _ ▸ h).1.symm ▸ rfl

theorem requestGo_delays_chain (env : Nat → FetchEvent) (retries : Nat) :
    ∀ fuel attempt, List.Chain' (· ≤ ·) (requestGo env retries fuel attempt).delays := by
  intro fuel
  induction fuel with
  | zero => intro a; simp [requestGo]
  | succ n ih =>
    intro a
    rcases requestGo_delays_cases env retries n a with hnil | ⟨hcons, _⟩
    · rw [hnil]; exact List.chain'_nil
    · rw [hcons]
      refine List.chain'_cons'.mpr ⟨?_, ih (a + 1)⟩
      intro y hy
      cases hd : (requestGo env retries n (a + 1)).delays with
      | nil => rw [hd] at hy; simp at hy
      | cons z t =>
        rw [hd] at hy
        simp only [List.head?_cons, Option.mem_def, Option.some.injEq] at hy
        subst hy
        have hz := requestGo_delays_head env retries n (a + 1) z t hd
        rw [hz]
        exact httpRetryDelay_mono a

theorem requestGo_delays_bounded (env : Nat → FetchEvent) (retries : Nat) :
    ∀ fuel attempt,
      ((requestGo env retries fuel attempt).delays.all fun d => decide (d ≤ 10000)) = true := by
  intro fuel
  induction fuel with
  | zero => intro a; simp [requestGo]
  | succ n ih =>
    intro a
    rcases requestGo_delays_cases env retries n a with hnil | ⟨hcons, _⟩
    · rw [hnil]; rfl
    · rw [hcons]
      simp only [List.all_cons, Bool.and_eq_true, decide_eq_true_eq]
      exact ⟨httpRetryDelay_le_cap a, ih (a + 1)⟩

end HttpApi

namespace SSE

/-- Default configuration of the `useSSE` hook (src/hooks/useSSE.ts lines
81-84). -/
def DEFAULT_INITIAL_RETRY_DELAY : Nat := 1000

def DEFAULT_MAX_RETRY_DELAY : Nat := 30000

def DEFAULT_MAX_RETRIES : Nat := 3

/-- `getRetryDelay` of the `useSSE` hook (src/hooks/useSSE.ts lines
192-195): `Math.min(initialRetryDelay * Math.pow(2, retryCount),
maxRetryDelay)`. -/
def getRetryDelay (initialRetryDelay maxRetryDelay retryCount : Nat) : Nat :=
  min (initialRetryDelay * 2 ^ retryCount) maxRetryDelay

/-- How the catch handler of `connectInternal` (src/hooks/useSSE.ts lines
373-391) reacts to a rejected `fetch`: the promise rejects with an
`AbortError` — raised both by an explicit `cancel` and by the stream-open
timeout calling `abort()` (lines 261-263) — or with some other error. -/
inductive FetchFailure where
  | abortError
  | other
deriving DecidableEq

/-- The reaction of the catch handler: set status `idle` without retrying,
or schedule a retry with a retryable `FETCH_ERROR`. -/
inductive FailureReaction where
  | setIdle
  | scheduleRetryFetchError
deriving DecidableEq

/-- The catch handler of `connectInternal` (src/hooks/useSSE.ts lines
373-391): an `AbortError` is treated as a cancellation (status `idle`, no
retry scheduled, `onError` not invoked); any other fetch failure
schedules a retry. -/
def connectCatch : FetchFailure → FailureReaction
  | FetchFailure.abortError => FailureReaction.setIdle
  | FetchFailure.other => FailureReaction.scheduleRetryFetchError

end SSE

namespace ConnMgr

/-- `CONNECTION_CONFIG` (src/convex.ts lines 23-29). -/
def MAX_RETRIES : Nat := 5

def INITIAL_RETRY_DELAY_MS : Nat := 1000

def MAX_RETRY_DELAY_MS : Nat := 30000

def BACKOFF_MULTIPLIER : Nat := 2

/-- `WebSocketConnectionManager.getRetryDelay` (src/convex.ts lines
70-79): `Math.min(INITIAL_RETRY_DELAY_MS * Math.pow(BACKOFF_MULTIPLIER,
retryCount), MAX_RETRY_DELAY_MS)`. -/
def getRetryDelay (retryCount : Nat) : Nat :=
  min (INITIAL_RETRY_DELAY_MS * BACKOFF_MULTIPLIER ^ retryCount) MAX_RETRY_DELAY_MS

/-- `ConnectionState` (src/convex.ts lines 6-11). -/
inductive ConnState where
  | connecting
  | connected
  | disconnected
  | error
  | maxRetriesExceeded
deriving DecidableEq

/-- The mutable `ConnectionManager` record held by
`WebSocketConnectionManager` (src/convex.ts lines 13-18); the
`lastRetryTime` wall-clock field is not modeled (no claim mentions it). -/
structure ManagerState where
  state : ConnState
  retryCount : Nat
  lastError : Option String
deriving DecidableEq

/-- The initial state (src/convex.ts lines 35-40). -/
def initialState : ManagerState :=
  ⟨ConnState.connecting, 0, none⟩

/-- `recordConnectionAttempt` (src/convex.ts lines 91-96): sets `state` to
`connecting`, leaves `retryCount` and `lastError` unchanged. -/
def recordConnectionAttempt (s : ManagerState) : ManagerState :=
  { s with state := ConnState.connecting }

/-- `recordConnected` (src/convex.ts lines 101-107). -/
def recordConnected (s : ManagerState) : ManagerState :=
  { s with state := ConnState.connected, retryCount := 0, lastError := none }

/-- `recordError` (src/convex.ts lines 112-128): increments the retry
count and enters `max_retries_exceeded` exactly when the new count is at
least `MAX_RETRIES`. -/
def recordError (err : String) (s : ManagerState) : ManagerState :=
  if s.retryCount + 1 ≥ MAX_RETRIES then
    ⟨ConnState.maxRetriesExceeded, s.retryCount + 1, some err⟩
  else
    ⟨ConnState.error, s.retryCount + 1, some err⟩

/-- `recordDisconnected` (src/convex.ts lines 133-137). -/
def recordDisconnected (s : ManagerState) : ManagerState :=
  { s with state := ConnState.disconnected }

/-- `reset` (src/convex.ts lines 142-149). -/
def reset (_s : ManagerState) : ManagerState :=
  ⟨ConnState.connecting, 0, none⟩

/-- `shouldRetry` (src/convex.ts lines 84-86). -/
def shouldRetry (s : ManagerState) : Bool :=
  decide (s.retryCount < MAX_RETRIES)

/-- The public mutating operations of `WebSocketConnectionManager`. -/
inductive Op where
  | recordConnectionAttempt
  | recordConnected
  | recordError (err : String)
  | recordDisconnected
  | reset

/-- Apply one operation to the manager state. -/
def applyOp (s : ManagerState) : Op → ManagerState
  | Op.recordConnectionAttempt => recordConnectionAttempt s
  | Op.recordConnected => recordConnected s
  | Op.recordError err => recordError err s
  | Op.recordDisconnected => recordDisconnected s
  | Op.reset => reset s

/-- The state reached from the initial state by a sequence of operations:
exactly the states the singleton manager can be observed in. -/
def runOps (ops : List Op) : ManagerState :=
  ops.foldl applyOp initialState

/-- Invariant: `max_retries_exceeded` is only entered with
`retryCount ≥ MAX_RETRIES`. -/
def countInv (s : ManagerState) : Prop :=
  s.state = ConnState.maxRetriesExceeded → MAX_RETRIES ≤ s.retryCount

theorem applyOp_countInv (s : ManagerState) (op : Op) :
    countInv (applyOp s op) := by
  cases op with
  | recordConnectionAttempt =>
    intro hc; simp [applyOp, recordConnectionAttempt] at hc
  | recordConnected =>
    intro hc; simp [applyOp, recordConnected] at hc
  | recordError err =>
    intro hc
    simp only [applyOp, recordError] at hc ⊢
    by_cases hb : s.retryCount + 1 ≥ MAX_RETRIES
    · simp only [if_pos hb]; exact hb
    · rw [if_neg hb] at hc; cases hc
  | recordDisconnected =>
    intro hc; simp [applyOp, recordDisconnected] at hc
  | reset =>
    intro hc; simp [applyOp, reset] at hc

theorem runOps_countInv (ops : List Op) : countInv (runOps ops) := by
  suffices h : ∀ s, countInv s → countInv (ops.foldl applyOp s) by
    exact h initialState (by intro hc; cases hc)
  induction ops with
  | nil => intro s hs; exact hs
  | cons op rest ih => intro s _hs; exact ih _ (applyOp_countInv s op)

end ConnMgr

/-- Helper: the catch-block classification in `HttpClient.request` spares
an error from rethrow exactly when it is not an `AuthenticationError` and
its status code is outside [400, 500). -/
theorem shouldRethrow_eq_false_iff (e : HttpApi.ThrownError) :
    HttpApi.shouldRethrow e = false ↔
      (e.name ≠ HttpApi.ErrName.authenticationError ∧
        ¬(400 ≤ e.statusCode ∧ e.statusCode < 500)) := by
  cases e with
  | mk name status => cases name <;> simp [HttpApi.shouldRethrow]

/-- C1 counterexample: a response with HTTP status 304 — a non-ok status
outside the 4xx band, in none of the claim's retryable classes (network
failure, timeout, 5xx, 429) — is nevertheless retried: with every
attempt answering 304 and budget 3, `HttpClient.request` makes all 4
attempts (three retries), because the catch block spares every
`HttpApiError` whose status lies outside [400, 500).  So "a retry is
attempted only when the outcome is classified retryable
(network/timeout/5xx/429)" is false of the program. -/
theorem c1_counterexample :
    (HttpApi.request (fun _ => HttpApi.FetchEvent.response 304) 3).attempts = 4 ∧
    HttpApi.attemptOf (HttpApi.FetchEvent.response 304) =
      HttpApi.AttemptOutcome.thrown (HttpApi.httpApiErr 304) ∧
    ¬ HttpApi.specRetryable (HttpApi.httpApiErr 304) := by
  refine ⟨by decide, by decide, ?_⟩
  intro h
  simp [HttpApi.specRetryable, HttpApi.httpApiErr] at h

/-- C1 (amended): in `HttpClient.request`, a retry is attempted only
when the attempt's outcome is spared by the code's own classification —
it is not an `AuthenticationError` and its status code lies outside
[400, 500), i.e. network failures (status 0), HTTP 5xx, and also non-ok
responses below 400 such as 304; dually, an HTTP 401 or any other 4xx
response — the 408-classified timeout and 429 included — is never
retried, and a first-attempt 401 results in exactly one attempt. -/
theorem c1_amended_retry_classification :
    (∀ (env : Nat → HttpApi.FetchEvent) (retries a : Nat),
        a + 1 < (HttpApi.request env retries).attempts →
        ∃ e, HttpApi.attemptOf (env a) = HttpApi.AttemptOutcome.thrown e ∧
          HttpApi.shouldRethrow e = false) ∧
    (∀ e : HttpApi.ThrownError,
        HttpApi.shouldRethrow e = false ↔
          (e.name ≠ HttpApi.ErrName.authenticationError ∧
            ¬(400 ≤ e.statusCode ∧ e.statusCode < 500))) ∧
    (∀ (env : Nat → HttpApi.FetchEvent) (retries : Nat),
        env 0 = HttpApi.FetchEvent.response 401 →
        (HttpApi.request env retries).attempts = 1) := by
  refine ⟨?_, ?_, ?_⟩
  · intro env retries a h
    have := HttpApi.requestGo_retried env retries a (retries + 1) 0 h
    simpa using this
  · intro e
    exact shouldRethrow_eq_false_iff e
  · intro env retries h
    show (HttpApi.requestGo env retries (retries + 1) 0).attempts = 1
    simp [HttpApi.requestGo, h, HttpApi.attemptOf, HttpApi.fetchWithTimeout,
      HttpApi.shouldRethrow, HttpApi.httpApiErr]

/-- C1 amended-claim witness: a first-attempt 401 makes exactly one
attempt; with every attempt a network failure and budget 3, attempt 0
was followed by a retry and its error was spared by the code's
classification. -/
theorem c1_amended_retry_classification_witness :
    (HttpApi.request (fun _ => HttpApi.FetchEvent.response 401) 3).attempts = 1 ∧
    (∃ e, HttpApi.attemptOf ((fun _ => HttpApi.FetchEvent.netError) 0) =
        HttpApi.AttemptOutcome.thrown e ∧ HttpApi.shouldRethrow e = false) :=
  ⟨c1_amended_retry_classification.2.2 _ 3 rfl,
   c1_amended_retry_classification.1 (fun _ => HttpApi.FetchEvent.netError) 3 0
     (by decide)⟩

/-- C2 counterexample: with every attempt timing out (abort fired) and
retry budget 3, `HttpClient.request` makes exactly one attempt, waits no
backoff delay, and surfaces the `TimeoutError` — the timed-out attempt is
not retried, contradicting the claim that a timeout is retried under the
same backoff policy as a transport failure (`TimeoutError` carries status
408, which the "never retry 4xx" guard catches). -/
theorem c2_counterexample :
    (HttpApi.request (fun _ => HttpApi.FetchEvent.aborted) 3).attempts = 1 ∧
    (HttpApi.request (fun _ => HttpApi.FetchEvent.aborted) 3).delays = [] ∧
    (HttpApi.request (fun _ => HttpApi.FetchEvent.aborted) 3).result =
      Except.error HttpApi.timeoutErr := by decide

/-- C2 (amended): exceeding the wall-clock timeout aborts the underlying
transport and the attempt is classified as a timeout error, but the
timed-out attempt is treated as a non-retryable outcome, not like a
transport failure: the request layer surfaces the `TimeoutError` after
exactly one attempt (its 408 status falls in the 4xx never-retry band),
and the stream opener handles the timeout-triggered abort as a
cancellation (status `idle`, no retry scheduled). -/
theorem c2_amended_timeout_not_retried :
    (∀ (env : Nat → HttpApi.FetchEvent) (retries : Nat),
        HttpApi.attemptOf (env 0) = HttpApi.AttemptOutcome.thrown HttpApi.timeoutErr →
        (HttpApi.request env retries).attempts = 1 ∧
        (HttpApi.request env retries).result = Except.error HttpApi.timeoutErr) ∧
    HttpApi.fetchWithTimeout HttpApi.FetchEvent.aborted = Except.error HttpApi.timeoutErr ∧
    SSE.connectCatch SSE.FetchFailure.abortError = SSE.FailureReaction.setIdle := by
  refine ⟨?_, rfl, rfl⟩
  intro env retries h
  show (HttpApi.requestGo env retries (retries + 1) 0).attempts = 1 ∧
    (HttpApi.requestGo env retries (retries + 1) 0).result =
      Except.error HttpApi.timeoutErr
  simp [HttpApi.requestGo, h, HttpApi.shouldRethrow, HttpApi.timeoutErr]

/-- C2 amended-claim witness at a concrete timing-out environment. -/
theorem c2_amended_timeout_not_retried_witness :
    (HttpApi.request (fun _ => HttpApi.FetchEvent.aborted) 5).attempts = 1 ∧
    (HttpApi.request (fun _ => HttpApi.FetchEvent.aborted) 5).result =
      Except.error HttpApi.timeoutErr :=
  c2_amended_timeout_not_retried.1 (fun _ => HttpApi.FetchEvent.aborted) 5 (by decide)

/-- C3: `HttpClient.request` with retry budget `retries` makes at most
`retries + 1` attempts against any environment — it never retries
indefinitely — and when every attempt fails with an error spared by the
retry classification, it makes exactly `retries + 1` attempts and
surfaces the last attempt's error. -/
theorem c3_retry_ceiling :
    (∀ (env : Nat → HttpApi.FetchEvent) (retries : Nat),
        (HttpApi.request env retries).attempts ≤ retries + 1) ∧
    (∀ (env : Nat → HttpApi.FetchEvent) (retries : Nat)
        (e : Nat → HttpApi.ThrownError),
        (∀ b, b ≤ retries →
          HttpApi.attemptOf (env b) = HttpApi.AttemptOutcome.thrown (e b) ∧
          HttpApi.shouldRethrow (e b) = false) →
        (HttpApi.request env retries).attempts = retries + 1 ∧
        (HttpApi.request env retries).result = Except.error (e retries)) := by
  constructor
  · intro env retries
    exact HttpApi.requestGo_attempts_le env retries (retries + 1) 0
  · intro env retries e henv
    exact HttpApi.requestGo_all_fail env retries e henv (retries + 1) 0
      (by omega) (by omega)

/-- C3 witness: with every attempt a network failure and budget 2, the
layer makes exactly 3 attempts and surfaces the network error. -/
theorem c3_retry_ceiling_witness :
    (HttpApi.request (fun _ => HttpApi.FetchEvent.netError) 2).attempts = 3 ∧
    (HttpApi.request (fun _ => HttpApi.FetchEvent.netError) 2).result =
      Except.error HttpApi.networkErr :=
  c3_retry_ceiling.2 (fun _ => HttpApi.FetchEvent.netError) 2
    (fun _ => HttpApi.networkErr) (fun _b _hb => ⟨rfl, rfl⟩)

/-- C8: each retry delay is `base * 2 ^ attempt` capped at a maximum, so
consecutive delays are non-decreasing and never exceed the cap: for the
HTTP request layer (base 1000, cap 10000) — both as a function of the
attempt index and along the delay trace of any actual `request` run — for
the `useSSE` reopen policy (any base and cap), and for the connection
manager's `getRetryDelay` (base 1000, cap `MAX_RETRY_DELAY_MS`). -/
theorem c8_backoff_monotone_capped :
    (∀ a, HttpApi.httpRetryDelay a ≤ HttpApi.httpRetryDelay (a + 1) ∧
        HttpApi.httpRetryDelay a ≤ 10000) ∧
    (∀ (env : Nat → HttpApi.FetchEvent) (retries : Nat),
        List.Chain' (· ≤ ·) (HttpApi.request env retries).delays ∧
        ((HttpApi.request env retries).delays.all fun d => decide (d ≤ 10000)) = true) ∧
    (∀ initialRetryDelay maxRetryDelay n,
        SSE.getRetryDelay initialRetryDelay maxRetryDelay n ≤
          SSE.getRetryDelay initialRetryDelay maxRetryDelay (n + 1) ∧
        SSE.getRetryDelay initialRetryDelay maxRetryDelay n ≤ maxRetryDelay) ∧
    (∀ n, ConnMgr.getRetryDelay n ≤ ConnMgr.getRetryDelay (n + 1) ∧
        ConnMgr.getRetryDelay n ≤ ConnMgr.MAX_RETRY_DELAY_MS) := by
  refine ⟨fun a => ⟨HttpApi.httpRetryDelay_mono a, HttpApi.httpRetryDelay_le_cap a⟩,
    fun env retries => ⟨HttpApi.requestGo_delays_chain env retries _ 0,
      HttpApi.requestGo_delays_bounded env retries _ 0⟩,
    fun initialRetryDelay maxRetryDelay n => ⟨?_, Nat.min_le_right _ _⟩,
    fun n => ⟨?_, Nat.min_le_right _ _⟩⟩
  · unfold SSE.getRetryDelay
    refine min_le_min (Nat.mul_le_mul_left _ ?_) le_rfl
    exact Nat.pow_le_pow_right (by omega) (by omega)
  · unfold ConnMgr.getRetryDelay ConnMgr.BACKOFF_MULTIPLIER
    refine min_le_min (Nat.mul_le_mul_left _ ?_) le_rfl
    exact Nat.pow_le_pow_right (by omega) (by omega)

/-- C10: `recordError` increments `retryCount` by one; the resulting
state is `max_retries_exceeded` exactly when the new count reaches
`MAX_RETRIES` (5) — and, the counter only being cleared by
`recordConnected` or `reset`, in every reachable
`max_retries_exceeded` state `shouldRetry` returns `false`, while
`recordConnected` and `reset` both clear the counter to 0, making
`shouldRetry` true again. -/
theorem c10_record_error_max_retries :
    (∀ (s : ConnMgr.ManagerState) (err : String),
        (ConnMgr.recordError err s).retryCount = s.retryCount + 1) ∧
    (∀ (s : ConnMgr.ManagerState) (err : String),
        ((ConnMgr.recordError err s).state = ConnMgr.ConnState.maxRetriesExceeded ↔
          ConnMgr.MAX_RETRIES ≤ s.retryCount + 1)) ∧
    (∀ ops : List ConnMgr.Op,
        (ConnMgr.runOps ops).state = ConnMgr.ConnState.maxRetriesExceeded →
        ConnMgr.shouldRetry (ConnMgr.runOps ops) = false) ∧
    (∀ s : ConnMgr.ManagerState,
        (ConnMgr.recordConnected s).retryCount = 0 ∧
        (ConnMgr.reset s).retryCount = 0 ∧
        ConnMgr.shouldRetry (ConnMgr.recordConnected s) = true ∧
        ConnMgr.shouldRetry (ConnMgr.reset s) = true) := by
  refine ⟨?_, ?_, ?_, ?_⟩
  · intro s err
    unfold ConnMgr.recordError
    split <;> rfl
  · intro s err
    unfold ConnMgr.recordError
    by_cases hb : ConnMgr.MAX_RETRIES ≤ s.retryCount + 1
    · rw [if_pos hb]
      simpa using hb
    · rw [if_neg hb]
      simp [hb]
  · intro ops h
    have hinv := ConnMgr.runOps_countInv ops h
    simp only [ConnMgr.shouldRetry, decide_eq_false_iff_not]
    omega
  · intro s
    exact ⟨rfl, rfl, rfl, rfl⟩

/-- C10 witness: five consecutive `recordError` calls from the initial
state reach `max_retries_exceeded`, where `shouldRetry` is false. -/
theorem c10_record_error_max_retries_witness :
    ConnMgr.shouldRetry
      (ConnMgr.runOps (List.replicate 5 (ConnMgr.Op.recordError ("boom")))) = false :=
  c10_record_error_max_retries.2.2.1 _ (by decide)

namespace SSE

/-- `const lines = buffer.split('\n'); buffer = lines.pop() || ''` — the
line-splitting step of the SSE read loops (src/hooks/useSSE.ts lines
333-334, src/convex.ts lines 800-801): the first component is the list of
completed lines, the second the trailing partial line kept in the
buffer. -/
def splitLines : List Char → List (List Char) × List Char
  | [] => ([], [])
  | c :: rest =>
    if c = '\n' then
      ([] :: (splitLines rest).1, (splitLines rest).2)
    else
      match splitLines rest with
      | ([], r) => ([], c :: r)
      | (l :: ls, r) => ((c :: l) :: ls, r)

/-- Prefix the first line of a split with a carried-over remainder. -/
def consHead (r : List Char) : List (List Char) → List (List Char)
  | [] => []
  | l :: ls => (r ++ l) :: ls

theorem consHead_nil (ls : List (List Char)) : consHead [] ls = ls := by
  cases ls <;> simp [consHead]

theorem splitLines_append (a b : List Char) :
    splitLines (a ++ b) =
      ((splitLines a).1 ++ consHead (splitLines a).2 (splitLines b).1,
        if (splitLines b).1 = [] then (splitLines a).2 ++ (splitLines b).2
        else (splitLines b).2) := by
  induction a with
  | nil =>
    cases hb : splitLines b with
    | mk lb rb =>
      cases lb with
      | nil => simp [splitLines, consHead, hb]
      | cons l ls => simp [splitLines, consHead, hb]
  | cons c a ih =>
    by_cases hc : c = '\n'
    · subst hc
      cases hb : splitLines b with
      | mk lb rb =>
        rw [hb] at ih
        cases lb with
        | nil =>
          simp only [List.cons_append, splitLines, if_pos rfl]
          simp [consHead, ih]
        | cons l ls =>
          simp only [List.cons_append, splitLines, if_pos rfl]
          simp [consHead, ih]
    · cases hb : splitLines b with
      | mk lb rb =>
        rw [hb] at ih
        cases haa : splitLines a with
        | mk la ra =>
          rw [haa] at ih
          cases la with
          | nil =>
            cases lb with
            | nil =>
              simp [splitLines, consHead, haa, hb, if_neg hc, ih]
            | cons l ls =>
              simp [splitLines, consHead, haa, hb, if_neg hc, ih]
          | cons l0 ls0 =>
            cases lb with
            | nil =>
              simp [splitLines, consHead, haa, hb, if_neg hc, ih]
            | cons l ls =>
              simp [splitLines, consHead, haa, hb, if_neg hc, ih]

theorem splitLines_rem_no_nl (s : List Char) : '\n' ∉ (splitLines s).2 := by
  induction s with
  | nil => simp [splitLines]
  | cons c rest ih =>
    by_cases hc : c = '\n'
    · subst hc; simpa [splitLines] using ih
    · cases h : splitLines rest with
      | mk ls r =>
        rw [h] at ih
        cases ls with
        | nil =>
          simp only [splitLines, if_neg hc, h, List.mem_cons, not_or]
          exact ⟨fun hh => hc hh.symm, by simpa using ih⟩
        | cons l ls2 =>
          simp only [splitLines, if_neg hc, h]
          simpa using ih

theorem splitLines_no_nl (s : List Char) (h : '\n' ∉ s) : splitLines s = ([], s) := by
  induction s with
  | nil => simp [splitLines]
  | cons c rest ih =>
    have hc : c ≠ '\n' := by intro hcc; exact h (hcc ▸ List.mem_cons_self c rest)
    have hrest : '\n' ∉ rest := fun hm => h (List.mem_cons_of_mem c hm)
    simp only [splitLines, if_neg hc, ih hrest]

/-- `buffer.trim()` used as a truthiness test (the done-branch of the
read loop, src/hooks/useSSE.ts line 321): true iff the buffer holds a
non-whitespace character. -/
def hasContent (l : List Char) : Bool := l.any (fun c => !c.isWhitespace)

/-- The read loop of `connectInternal` (src/hooks/useSSE.ts lines
315-342) with the per-line processing abstracted as `h` (each complete
line is handed to `processSSEChunk`, which may emit text chunks): each
read chunk is appended to the buffer, completed lines are processed in
order, the trailing partial line is carried; at end of stream the
leftover buffer is processed if its trim is non-empty.  The result is the
ordered list of emitted chunks (their concatenation is the accumulated
full text passed to `onComplete`). -/
def sseFeed (h : List Char → List (List Char)) :
    List Char → List (List Char) → List (List Char)
  | buffer, [] => if hasContent buffer then h buffer else []
  | buffer, c :: cs =>
    (splitLines (buffer ++ c)).1.flatMap h ++ sseFeed h (splitLines (buffer ++ c)).2 cs

/-- One-shot reference reader: process the whole decoded stream at once. -/
def sseWhole (h : List Char → List (List Char)) (s : List Char) : List (List Char) :=
  (splitLines s).1.flatMap h ++
    (if hasContent (splitLines s).2 then h (splitLines s).2 else [])

theorem sseFeed_eq_whole (h : List Char → List (List Char)) :
    ∀ (cs : List (List Char)) (buffer : List Char), '\n' ∉ buffer →
      sseFeed h buffer cs = sseWhole h (buffer ++ cs.flatten) := by
  intro cs
  induction cs with
  | nil =>
    intro buffer hb
    simp only [sseFeed, List.flatten_nil, List.append_nil, sseWhole,
      splitLines_no_nl buffer hb, List.flatMap_nil, List.nil_append]
  | cons c cs ih =>
    intro buffer hb
    have hrem := splitLines_rem_no_nl (buffer ++ c)
    have hih := ih (splitLines (buffer ++ c)).2 hrem
    simp only [sseFeed, hih, sseWhole]
    have happ := splitLines_append (buffer ++ c) cs.flatten
    have happ2 := splitLines_append (splitLines (buffer ++ c)).2 cs.flatten
    rw [splitLines_no_nl _ hrem] at happ2
    simp only [List.nil_append, consHead_nil] at happ2
    have hflat : buffer ++ (c :: cs).flatten = (buffer ++ c) ++ cs.flatten := by
      simp [List.flatten_cons, List.append_assoc]
    rw [hflat, happ, happ2]
    simp only [List.flatMap_append, List.append_assoc]

end SSE

/-- C5: the SSE read loop delivers the same ordered chunk sequence (and
hence reconstructs the same accumulated full text, their concatenation)
for any two ways of partitioning the same decoded input stream into read
chunks — a trailing partial line is buffered across reads, so chunk
boundaries, including one splitting a `data: ` frame mid-token, are
unobservable.  Stated parametrically in the per-line handler `h`
(`processSSEChunk` in the source), so it covers both `connectInternal`
and `useChatStream`. -/
theorem c5_chunking_invariance :
    ∀ (h : List Char → List (List Char)) (cs1 cs2 : List (List Char)),
      cs1.flatten = cs2.flatten →
      SSE.sseFeed h [] cs1 = SSE.sseFeed h [] cs2 := by
  intro h cs1 cs2 heq
  rw [SSE.sseFeed_eq_whole h cs1 [] (by simp),
    SSE.sseFeed_eq_whole h cs2 [] (by simp)]
  simp [heq]

/-- C5 witness: a `data: ` frame split mid-token across two reads yields
the same delivery as the unsplit frame. -/
theorem c5_chunking_invariance_witness :
    ([("data: hel").data, ("lo\n").data].flatten =
      [("data: ").data, ("hello\n").data].flatten) ∧
    SSE.sseFeed (fun l => [l]) [] [("data: hel").data, ("lo\n").data] =
      SSE.sseFeed (fun l => [l]) [] [("data: ").data, ("hello\n").data] :=
  ⟨by decide, c5_chunking_invariance (fun l => [l]) _ _ (by decide)⟩

namespace Json

/-- The JSON value domain of `JSON.parse`.  Numbers keep their source
lexeme: the claims under verification never hinge on numeric payloads,
and JavaScript's canonical float printing is out of scope (the lexeme is
used verbatim where the code coerces a number to text). -/
inductive JValue where
  | jnull
  | jbool (b : Bool)
  | jnum (raw : List Char)
  | jstr (s : List Char)
  | jarr (elems : List JValue)
  | jobj (fields : List (List Char × JValue))

/-- JSON insignificant whitespace. -/
def jsonWs (c : Char) : Bool := c = ' ' || c = '\t' || c = '\n' || c = '\r'

def skipWs (s : List Char) : List Char := s.dropWhile jsonWs

def braceOpen : Char := Char.ofNat 123

def braceClose : Char := Char.ofNat 125

def hexVal (c : Char) : Option Nat :=
  if '0' ≤ c ∧ c ≤ '9' then some (c.toNat - 48)
  else if 'a' ≤ c ∧ c ≤ 'f' then some (c.toNat - 87)
  else if 'A' ≤ c ∧ c ≤ 'F' then some (c.toNat - 55)
  else none

/-- Parse the remainder of a JSON string literal (opening quote already
consumed): handles the escape set of the JSON grammar and rejects raw
control characters, as `JSON.parse` does.  A `\uXXXX` surrogate pair is
combined into one scalar; a lone surrogate (legal for `JSON.parse`,
which yields an ill-formed UTF-16 string) is mapped to U+FFFD since a
Lean `Char` holds only scalar values. -/
def parseStringRest : Nat → List Char → Option (List Char × List Char)
  | 0, _ => none
  | _ + 1, [] => none
  | fuel + 1, c :: rest =>
    if c = '"' then some ([], rest)
    else if c = '\\' then
      match rest with
      | [] => none
      | e :: rest2 =>
        if e = '"' ∨ e = '\\' ∨ e = '/' then
          (parseStringRest fuel rest2).map (fun p => (e :: p.1, p.2))
        else if e = 'b' then
          (parseStringRest fuel rest2).map (fun p => (Char.ofNat 8 :: p.1, p.2))
        else if e = 'f' then
          (parseStringRest fuel rest2).map (fun p => (Char.ofNat 12 :: p.1, p.2))
        else if e = 'n' then
          (parseStringRest fuel rest2).map (fun p => ('\n' :: p.1, p.2))
        else if e = 'r' then
          (parseStringRest fuel rest2).map (fun p => ('\r' :: p.1, p.2))
        else if e = 't' then
          (parseStringRest fuel rest2).map (fun p => ('\t' :: p.1, p.2))
        else if e = 'u' then
          match rest2 with
          | h1 :: h2 :: h3 :: h4 :: r3 =>
            match hexVal h1, hexVal h2, hexVal h3, hexVal h4 with
            | some x1, some x2, some x3, some x4 =>
              let code := ((x1 * 16 + x2) * 16 + x3) * 16 + x4
              if 55296 ≤ code ∧ code ≤ 56319 then
                match r3 with
                | b1 :: b2 :: g1 :: g2 :: g3 :: g4 :: r4 =>
                  if b1 = '\\' ∧ b2 = 'u' then
                    match hexVal g1, hexVal g2, hexVal g3, hexVal g4 with
                    | some y1, some y2, some y3, some y4 =>
                      let lo := ((y1 * 16 + y2) * 16 + y3) * 16 + y4
                      if 56320 ≤ lo ∧ lo ≤ 57343 then
                        (parseStringRest fuel r4).map (fun p =>
                          (Char.ofNat (65536 + (code - 55296) * 1024 + (lo - 56320)) :: p.1,
                            p.2))
                      else
                        (parseStringRest fuel r3).map
                          (fun p => (Char.ofNat 65533 :: p.1, p.2))
                    | _, _, _, _ =>
                      (parseStringRest fuel r3).map
                        (fun p => (Char.ofNat 65533 :: p.1, p.2))
                  else
                    (parseStringRest fuel r3).map
                      (fun p => (Char.ofNat 65533 :: p.1, p.2))
                | _ =>
                  (parseStringRest fuel r3).map
                    (fun p => (Char.ofNat 65533 :: p.1, p.2))
              else if 56320 ≤ code ∧ code ≤ 57343 then
                (parseStringRest fuel r3).map (fun p => (Char.ofNat 65533 :: p.1, p.2))
              else
                (parseStringRest fuel r3).map (fun p => (Char.ofNat code :: p.1, p.2))
            | _, _, _, _ => none
          | _ => none
        else none
    else if c.toNat < 32 then none
    else (parseStringRest fuel rest).map (fun p => (c :: p.1, p.2))

/-- Parse a JSON number lexeme per the JSON grammar
(`-? (0 | [1-9][0-9]*) (. [0-9]+)? ([eE][+-]?[0-9]+)?`), returning the
lexeme and the rest of the input. -/
def parseNumber (s : List Char) : Option (List Char × List Char) :=
  let signSplit : List Char × List Char :=
    match s with
    | '-' :: r => (['-'], r)
    | _ => ([], s)
  match signSplit.2 with
  | [] => none
  | c :: rest1 =>
    if c.isDigit then
      let intSplit : List Char × List Char :=
        if c = '0' then (['0'], rest1)
        else (signSplit.2.takeWhile Char.isDigit, signSplit.2.dropWhile Char.isDigit)
      let fracRes : Option (List Char × List Char) :=
        match intSplit.2 with
        | '.' :: r =>
          if r.takeWhile Char.isDigit = [] then none
          else some ('.' :: r.takeWhile Char.isDigit, r.dropWhile Char.isDigit)
        | _ => some ([], intSplit.2)
      match fracRes with
      | none => none
      | some (fracPart, s3) =>
        let expRes : Option (List Char × List Char) :=
          match s3 with
          | e :: r =>
            if e = 'e' ∨ e = 'E' then
              let sgnSplit : List Char × List Char :=
                match r with
                | '+' :: rr => (['+'], rr)
                | '-' :: rr => (['-'], rr)
                | _ => ([], r)
              if sgnSplit.2.takeWhile Char.isDigit = [] then none
              else some (e :: (sgnSplit.1 ++ sgnSplit.2.takeWhile Char.isDigit),
                sgnSplit.2.dropWhile Char.isDigit)
            else some ([], s3)
          | [] => some ([], s3)
        match expRes with
        | none => none
        | some (expPart, s4) =>
          some (signSplit.1 ++ intSplit.1 ++ fracPart ++ expPart, s4)
    else none

mutual

/-- Parse one JSON value (fuel bounds the nesting depth; `jsonParse`
supplies enough fuel for any input). -/
def parseValue : Nat → List Char → Option (JValue × List Char)
  | 0, _ => none
  | fuel + 1, s0 =>
    match skipWs s0 with
    | [] => none
    | c :: rest =>
      if c = 'n' then
        match rest with
        | 'u' :: 'l' :: 'l' :: r => some (JValue.jnull, r)
        | _ => none
      else if c = 't' then
        match rest with
        | 'r' :: 'u' :: 'e' :: r => some (JValue.jbool true, r)
        | _ => none
      else if c = 'f' then
        match rest with
        | 'a' :: 'l' :: 's' :: 'e' :: r => some (JValue.jbool false, r)
        | _ => none
      else if c = '"' then
        match parseStringRest (rest.length + 1) rest with
        | some (str, r) => some (JValue.jstr str, r)
        | none => none
      else if c = '[' then
        match skipWs rest with
        | ']' :: r2 => some (JValue.jarr [], r2)
        | r1 =>
          match parseElems fuel r1 with
          | some (elems, r2) => some (JValue.jarr elems, r2)
          | none => none
      else if c = braceOpen then
        match skipWs rest with
        | [] => none
        | x :: r2 =>
          if x = braceClose then some (JValue.jobj [], r2)
          else
            match parseFields fuel (x :: r2) with
            | some (fields, r3) => some (JValue.jobj fields, r3)
            | none => none
      else
        match parseNumber (c :: rest) with
        | some (raw, r) => some (JValue.jnum raw, r)
        | none => none

/-- Parse the comma-separated elements of a non-empty JSON array up to
and including the closing bracket. -/
def parseElems : Nat → List Char → Option (List JValue × List Char)
  | 0, _ => none
  | fuel + 1, s =>
    match parseValue fuel s with
    | none => none
    | some (v, r) =>
      match skipWs r with
      | ',' :: r2 =>
        match parseElems fuel r2 with
        | some (vs, r3) => some (v :: vs, r3)
        | none => none
      | ']' :: r2 => some ([v], r2)
      | _ => none

/-- Parse the members of a non-empty JSON object up to and including the
closing brace. -/
def parseFields : Nat → List Char → Option (List (List Char × JValue) × List Char)
  | 0, _ => none
  | fuel + 1, s =>
    match skipWs s with
    | [] => none
    | c :: rest =>
      if c = '"' then
        match parseStringRest (rest.length + 1) rest with
        | some (key, r) =>
          match skipWs r with
          | ':' :: r2 =>
            match parseValue fuel r2 with
            | none => none
            | some (v, r3) =>
              match skipWs r3 with
              | ',' :: r5 =>
                match parseFields fuel r5 with
                | some (fs, r6) => some ((key, v) :: fs, r6)
                | none => none
              | [] => none
              | cb :: r5 =>
                if cb = braceClose then some ([(key, v)], r5) else none
          | _ => none
        | none => none
      else none

end

/-- `JSON.parse`: one value, with nothing but whitespace allowed after it
(trailing garbage is a syntax error). -/
def jsonParse (s : List Char) : Option JValue :=
  match parseValue (s.length + 1) s with
  | some (v, r) => if skipWs r = [] then some v else none
  | none => none

/-- Property read `obj.key` with JavaScript duplicate-key semantics (the
last occurrence wins); yields `undefined` (`none`) on non-objects, as
optional chaining does. -/
def jGet (v : JValue) (key : List Char) : Option JValue :=
  match v with
  | JValue.jobj fields => (fields.reverse.find? (fun p => p.1 == key)).map Prod.snd
  | _ => none

/-- Index read `x?.[0]`: first array element, or the property named `0`
of an object.  (A string's `[0]` — its first character — is not modeled:
the probed access chains continue with a property read that yields
`undefined` on both a one-character string and `none`, so the final
outcome agrees.) -/
def jIndex0 : JValue → Option JValue
  | JValue.jarr (x :: _) => some x
  | JValue.jobj fields => jGet (JValue.jobj fields) (("0").data)
  | _ => none

/-- Is the digit part of a JSON number lexeme all zeros (the exponent
cannot make a zero mantissa non-zero)? -/
def mantissaZero (raw : List Char) : Bool :=
  ((raw.takeWhile (fun c => ¬(c = 'e' ∨ c = 'E'))).filter Char.isDigit).all (· = '0')

/-- JavaScript truthiness of a parsed JSON value (`undefined` is handled
by the `Option` layer): `null`, `false`, `0` and `""` are falsy; objects
and arrays are always truthy. -/
def jTruthy : JValue → Bool
  | JValue.jnull => false
  | JValue.jbool b => b
  | JValue.jstr s => decide (s ≠ [])
  | JValue.jnum raw => !(mantissaZero raw)
  | JValue.jarr _ => true
  | JValue.jobj _ => true

/-- One-level JavaScript string coercion of an array element
(`String([x]) `): `null` becomes empty, nested composites are
approximated by their object tag. -/
def jsAtomToString : JValue → List Char
  | JValue.jnull => []
  | JValue.jbool true => ("true").data
  | JValue.jbool false => ("false").data
  | JValue.jnum raw => raw
  | JValue.jstr s => s
  | JValue.jarr _ => []
  | JValue.jobj _ => ("[object Object]").data

/-- JavaScript string coercion applied by `fullResponse += content`: a
string is itself, a number its lexeme (canonical float re-printing not
reproduced), an array its comma-joined elements, an object its tag. -/
def jsToString : JValue → List Char
  | JValue.jstr s => s
  | JValue.jnum raw => raw
  | JValue.jbool true => ("true").data
  | JValue.jbool false => ("false").data
  | JValue.jnull => ("null").data
  | JValue.jarr elems => List.intercalate ([',']) (elems.map jsAtomToString)
  | JValue.jobj _ => ("[object Object]").data

end Json

namespace Chat

/-- `'data: '` — the server-push frame marker (length 6). -/
def dataMarker : List Char := ("data: ").data

/-- `'[DONE]'` — the terminal sentinel payload. -/
def doneMarker : List Char := ("[DONE]").data

def contentKey : List Char := ("content").data

def choicesKey : List Char := ("choices").data

def deltaKey : List Char := ("delta").data

/-- `String.prototype.trim` on a line (whitespace at both ends removed). -/
def trimChars (l : List Char) : List Char :=
  ((l.dropWhile Char.isWhitespace).reverse.dropWhile Char.isWhitespace).reverse

/-- The access chain `parsed.choices?.[0]?.delta?.content` (src/convex.ts
line 817). -/
def deltaContentPath (v : Json.JValue) : Option Json.JValue :=
  (((Json.jGet v choicesKey).bind Json.jIndex0).bind
    (fun x => Json.jGet x deltaKey)).bind (fun x => Json.jGet x contentKey)

/-- The `else if (parsed.content)` branch (src/convex.ts lines 821-824):
emit the coerced `content` field when it is truthy, else nothing. -/
def contentOf (v : Json.JValue) : Option (List Char) :=
  match Json.jGet v contentKey with
  | some y => if Json.jTruthy y then some (Json.jsToString y) else none
  | none => none

/-- What `streamChat` does with the payload of one `data: ` line
(src/convex.ts lines 814-829): parse as JSON; on success probe
`choices[0].delta.content` then `content` (emitting the first truthy
one, else nothing); on parse failure emit the raw payload text. -/
def scDataAction (d : List Char) : Option (List Char) :=
  match Json.jsonParse d with
  | none => some d
  | some v =>
    match deltaContentPath v with
    | some x => if Json.jTruthy x then some (Json.jsToString x) else contentOf v
    | none => contentOf v

/-- Callback invocations observable from `streamChat`: `onMessage` with a
chunk, `onComplete` with the accumulated full response. -/
inductive SCEvent where
  | msg (chunk : List Char)
  | complete (full : List Char)
deriving DecidableEq

/-- The `for (const line of lines)` loop of `streamChat` (src/convex.ts
lines 803-831) over the completed lines of one read: returns the updated
`fullResponse`, the emitted events, and whether the `[DONE]` marker
caused an early return (discarding any remaining lines). -/
def scLines (full : List Char) : List (List Char) → List Char × List SCEvent × Bool
  | [] => (full, [], false)
  | line :: rest =>
    if dataMarker.isPrefixOf (trimChars line) then
      if trimChars line |>.drop 6 |> (· = doneMarker) then
        (full, [SCEvent.complete full], true)
      else
        match scDataAction ((trimChars line).drop 6) with
        | some c =>
          ((scLines (full ++ c) rest).1,
            SCEvent.msg c :: (scLines (full ++ c) rest).2.1,
            (scLines (full ++ c) rest).2.2)
        | none => scLines full rest
    else scLines full rest

/-- The read loop of `streamChat` (src/convex.ts lines 786-844): append
each read to the buffer, split off completed lines, process them
(stopping at `[DONE]`); at end of stream, if the leftover buffer trims
non-empty and carries the `data: ` marker its payload is appended raw
(no JSON parse, no `[DONE]` check — exactly as lines 835-842), then
`onComplete` fires with the accumulated response. -/
def scRun (full buffer : List Char) : List (List Char) → List SCEvent
  | [] =>
    if trimChars buffer = [] then [SCEvent.complete full]
    else if dataMarker.isPrefixOf (trimChars buffer) then
      SCEvent.msg ((trimChars buffer).drop 6) ::
        [SCEvent.complete (full ++ (trimChars buffer).drop 6)]
    else [SCEvent.complete full]
  | c :: cs =>
    if (scLines full (SSE.splitLines (buffer ++ c)).1).2.2 then
      (scLines full (SSE.splitLines (buffer ++ c)).1).2.1
    else
      (scLines full (SSE.splitLines (buffer ++ c)).1).2.1 ++
        scRun (scLines full (SSE.splitLines (buffer ++ c)).1).1
          (SSE.splitLines (buffer ++ c)).2 cs

/-- `streamChat` run against a list of decoded reads (no abort, no
transport error), observed through its callbacks. -/
def streamChatRun (reads : List (List Char)) : List SCEvent :=
  scRun [] [] reads

theorem scLines_spec (lines : List (List Char)) : ∀ full,
    ∃ parts : List (List Char),
      (scLines full lines).1 = full ++ parts.flatten ∧
      (scLines full lines).2.1 = parts.map SCEvent.msg ++
        (if (scLines full lines).2.2 then
          [SCEvent.complete (full ++ parts.flatten)] else []) := by
  induction lines with
  | nil => intro full; exact ⟨[], by simp [scLines]⟩
  | cons line rest ih =>
    intro full
    by_cases hdata : dataMarker.isPrefixOf (trimChars line) = true
    · by_cases hdone : (trimChars line).drop 6 = doneMarker
      · refine ⟨[], ?_⟩
        simp [scLines, hdata, hdone]
      · cases hact : scDataAction ((trimChars line).drop 6) with
        | none =>
          obtain ⟨parts, h1, h2⟩ := ih full
          refine ⟨parts, ?_, ?_⟩ <;> simp [scLines, hdata, hdone, hact, h1, h2]
        | some c =>
          obtain ⟨parts, h1, h2⟩ := ih (full ++ c)
          refine ⟨c :: parts, ?_, ?_⟩
          · simp [scLines, hdata, hdone, hact, h1]
          · simp [scLines, hdata, hdone, hact, h2, List.append_assoc]
    · obtain ⟨parts, h1, h2⟩ := ih full
      refine ⟨parts, ?_, ?_⟩ <;> simp [scLines, hdata, h1, h2]

theorem scRun_spec (reads : List (List Char)) : ∀ full buffer,
    ∃ parts : List (List Char),
      scRun full buffer reads =
        parts.map SCEvent.msg ++ [SCEvent.complete (full ++ parts.flatten)] := by
  induction reads with
  | nil =>
    intro full buffer
    by_cases h1 : trimChars buffer = []
    · exact ⟨[], by simp [scRun, h1]⟩
    · by_cases h2 : dataMarker.isPrefixOf (trimChars buffer) = true
      · exact ⟨[(trimChars buffer).drop 6], by simp [scRun, h1, h2]⟩
      · exact ⟨[], by simp [scRun, h1, h2]⟩
  | cons c cs ih =>
    intro full buffer
    obtain ⟨p1, hl1, hl2⟩ := scLines_spec (SSE.splitLines (buffer ++ c)).1 full
    by_cases hdone : (scLines full (SSE.splitLines (buffer ++ c)).1).2.2 = true
    · refine ⟨p1, ?_⟩
      rw [hdone, if_pos rfl] at hl2
      simp [scRun, hdone, hl2]
    · obtain ⟨p2, hrec⟩ :=
        ih (scLines full (SSE.splitLines (buffer ++ c)).1).1
          (SSE.splitLines (buffer ++ c)).2
      refine ⟨p1 ++ p2, ?_⟩
      rw [eq_false_of_ne_true hdone] at hl2
      simp only [Bool.false_eq_true, if_false, List.append_nil] at hl2
      show scRun full buffer (c :: cs) = _
      simp only [scRun]
      rw [if_neg hdone, hl2, hrec, hl1]
      simp [List.append_assoc]

end Chat

/-- C4: `streamChat` treats a literal `[DONE]` payload as a terminal
marker and in every run emits `onComplete` exactly once, with the
accumulated text — the concatenation of the `onMessage` chunks — as its
argument (the event list always has the shape `msgs ++ [complete]`); and
for the frame sequence `data: {"content":"Hel"}`, `data: {"content":"lo"}`,
`data: [DONE]` delivered across three separate reads, the callbacks are
exactly `onMessage "Hel"`, `onMessage "lo"`, `onComplete "Hello"`. -/
theorem c4_done_terminal_complete_once :
    (∀ reads : List (List Char), ∃ parts : List (List Char),
        Chat.streamChatRun reads =
          parts.map Chat.SCEvent.msg ++ [Chat.SCEvent.complete parts.flatten]) ∧
    Chat.streamChatRun
        [("data: \x7b\"content\":\"Hel\"\x7d\n\n").data,
          ("data: \x7b\"content\":\"lo\"\x7d\n\n").data,
          ("data: [DONE]\n\n").data] =
      [Chat.SCEvent.msg (("Hel").data), Chat.SCEvent.msg (("lo").data),
        Chat.SCEvent.complete (("Hello").data)] := by
  constructor
  · intro reads
    obtain ⟨parts, hp⟩ := Chat.scRun_spec reads [] []
    exact ⟨parts, by simpa using hp⟩
  · decide

namespace AstroAuth

/-- The flow states of `useAstroAuth` (src/hooks/useAstroAuth.ts):
`'loading' | 'onboarding' | 'ready'`. -/
inductive AuthStatus where
  | loading
  | onboarding
  | ready
deriving DecidableEq

/-- The observable outcome of `checkAuth`: the `status` and `error`
states it leaves behind. -/
structure AuthView where
  status : AuthStatus
  error : Option String
deriving DecidableEq

/-- The outcome of the single profile fetch inside `checkAuth`: the
response's HTTP status code, or a thrown fetch error (network failure). -/
inductive ProfileFetchOutcome where
  | status (code : Nat)
  | networkFailure
deriving DecidableEq

/-- The response routing of the `useAstroAuth` variant implementing the
404 contract (src/hooks/useAstroAuth.ts lines 100-113, the second hook
body in the file; the spec notes the two backend contract versions and
the claim follows this one): 404 routes to onboarding, any `res.ok`
(2xx) to ready, and 401 / 500 / anything else / a thrown fetch error
leave the status at `loading` with an error message. -/
def routeProfileResponse : ProfileFetchOutcome → AuthView
  | ProfileFetchOutcome.networkFailure =>
    ⟨AuthStatus.loading, some ("Failed to check user status. Please check your connection.")⟩
  | ProfileFetchOutcome.status code =>
    if code = 404 then ⟨AuthStatus.onboarding, none⟩
    else if 200 ≤ code ∧ code < 300 then ⟨AuthStatus.ready, none⟩
    else if code = 401 then
      ⟨AuthStatus.loading, some ("Authentication failed. Please sign in again.")⟩
    else if code = 500 then
      ⟨AuthStatus.loading, some ("Server error. Please try again later.")⟩
    else ⟨AuthStatus.loading, some ("An unexpected error occurred.")⟩

/-- The full observable result of one `checkAuth` run. -/
structure CheckAuthResult where
  isAuthenticated : Bool
  fetches : Nat
  view : AuthView
deriving DecidableEq

/-- `checkAuth` (src/hooks/useAstroAuth.ts lines 79-120): with no stored
token it does not touch the profile endpoint; with a token it issues
exactly one profile fetch (`fetches = 1` — there is no retry loop) and
routes on the outcome. -/
def checkAuth (token : Option String) (outcome : ProfileFetchOutcome) :
    CheckAuthResult :=
  match token with
  | none => ⟨false, 0, ⟨AuthStatus.loading, none⟩⟩
  | some _ => ⟨true, 1, routeProfileResponse outcome⟩

end AstroAuth

/-- C6: on the authenticated entry branch, a profile fetch answering 404
routes immediately to ONBOARDING with no error and exactly one request
against the endpoint (zero retries); any 2xx answer (in particular one
whose body carries the completed status) routes to READY; and a 401, a
500, or a thrown network error leaves the flow in the non-terminal
`loading` state with an error message displayed — the state machine does
not advance — still after exactly one request. -/
theorem c6_profile_fetch_routing :
    (∀ t : String,
        AstroAuth.checkAuth (some t) (AstroAuth.ProfileFetchOutcome.status 404) =
          ⟨true, 1, ⟨AstroAuth.AuthStatus.onboarding, none⟩⟩) ∧
    (∀ (t : String) (code : Nat), 200 ≤ code → code < 300 →
        AstroAuth.checkAuth (some t) (AstroAuth.ProfileFetchOutcome.status code) =
          ⟨true, 1, ⟨AstroAuth.AuthStatus.ready, none⟩⟩) ∧
    (∀ (t : String) (o : AstroAuth.ProfileFetchOutcome),
        (o = AstroAuth.ProfileFetchOutcome.status 401 ∨
          o = AstroAuth.ProfileFetchOutcome.status 500 ∨
          o = AstroAuth.ProfileFetchOutcome.networkFailure) →
        (AstroAuth.checkAuth (some t) o).view.status = AstroAuth.AuthStatus.loading ∧
        ((AstroAuth.checkAuth (some t) o).view.error).isSome = true ∧
        (AstroAuth.checkAuth (some t) o).fetches = 1) := by
  refine ⟨?_, ?_, ?_⟩
  · intro t; rfl
  · intro t code h1 h2
    have h404 : code ≠ 404 := by omega
    simp only [AstroAuth.checkAuth, AstroAuth.routeProfileResponse]
    rw [if_neg h404, if_pos ⟨h1, h2⟩]
  · intro t o ho
    rcases ho with h | h | h <;> subst h <;> exact ⟨rfl, rfl, rfl⟩

/-- C6 witness at concrete outcomes: 404, 200 and 401. -/
theorem c6_profile_fetch_routing_witness :
    AstroAuth.checkAuth (some ("tok")) (AstroAuth.ProfileFetchOutcome.status 404) =
      ⟨true, 1, ⟨AstroAuth.AuthStatus.onboarding, none⟩⟩ ∧
    AstroAuth.checkAuth (some ("tok")) (AstroAuth.ProfileFetchOutcome.status 200) =
      ⟨true, 1, ⟨AstroAuth.AuthStatus.ready, none⟩⟩ ∧
    (AstroAuth.checkAuth (some ("tok"))
        (AstroAuth.ProfileFetchOutcome.status 401)).view.status =
      AstroAuth.AuthStatus.loading :=
  ⟨c6_profile_fetch_routing.1 ("tok"),
    c6_profile_fetch_routing.2.1 ("tok") 200 (by omega) (by omega),
    (c6_profile_fetch_routing.2.2 ("tok") _ (Or.inl rfl)).1⟩

namespace Onboarding

/-- `UserProfile.status` (src/services/astroApi.ts line 35). -/
inductive PStatus where
  | onboarding
  | processing
  | completed
  | failed
deriving DecidableEq

/-- The outcome of one `api.getProfile()` call inside the poll loop of
`handleSubmit`: the promise rejects (caught and ignored, the loop
continues), or resolves to a response with its `success` flag and
optional `data.status`. -/
inductive ProbeResult where
  | threw
  | resp (success : Bool) (status : Option PStatus)
deriving DecidableEq

/-- The loop's only exit test (src/components/OnboardingForm.tsx line
51): `profileResult.success && profileResult.data?.status ===
'completed'`.  No other status — `'failed'` included — is examined. -/
def isCompleted : ProbeResult → Bool
  | ProbeResult.resp true (some PStatus.completed) => true
  | _ => false

/-- `maxAttempts` (src/components/OnboardingForm.tsx line 41). -/
def maxAttempts : Nat := 30

/-- The `while (attempts < maxAttempts && !pollingComplete)` loop
(src/components/OnboardingForm.tsx lines 45-59), probing attempts
`attempt, attempt+1, ...` with `fuel` iterations left: returns the
number of probes made and whether the completed status was observed. -/
def pollGo (probe : Nat → ProbeResult) : Nat → Nat → Nat × Bool
  | 0, _ => (0, false)
  | fuel + 1, attempt =>
    if isCompleted (probe attempt) then (1, true)
    else
      ((pollGo probe fuel (attempt + 1)).1 + 1, (pollGo probe fuel (attempt + 1)).2)

/-- The message set when polling exhausts (src/components/
OnboardingForm.tsx line 62). -/
def timeoutMsg : String :=
  "Onboarding is taking longer than expected. Please refresh the page."

/-- The observable outcome of the post-submission polling phase. -/
structure SubmitPollOutcome where
  attempts : Nat
  succeeded : Bool
  errorMsg : Option String
deriving DecidableEq

/-- The polling phase of `handleSubmit` after an accepted onboarding
submission (src/components/OnboardingForm.tsx lines 40-63): poll up to
30 times (attempt indices 1..30); on observing the completed status call
`onSuccess` and stop; if the ceiling is reached without it, set the
timeout error message.  There is no early exit for the `'failed'`
status. -/
def handleSubmitPoll (probe : Nat → ProbeResult) : SubmitPollOutcome :=
  if (pollGo probe maxAttempts 1).2 then
    ⟨(pollGo probe maxAttempts 1).1, true, none⟩
  else
    ⟨(pollGo probe maxAttempts 1).1, false, some timeoutMsg⟩

end Onboarding

/-- C7 (the code's actual behavior at the failing input): when every
profile poll reports `success` with status `'failed'`, the loop does not
terminate early as the claim requires — it makes all 30 attempts and
ends with the generic timeout message, never surfacing the failure as
its own error.  The claim's `'failed'` exit (mandated by the repo's own
API_DOCUMENTATION.md polling logic and plann.md plan) is absent from the
code. -/
theorem c7_failed_status_polls_to_ceiling :
    Onboarding.handleSubmitPoll
        (fun _ => Onboarding.ProbeResult.resp true (some Onboarding.PStatus.failed)) =
      ⟨30, false, some Onboarding.timeoutMsg⟩ := by
  decide

namespace NetMon

/-- `ConnectionType` (src/components/GlassCard.tsx lines 45-54). -/
inductive ConnectionType where
  | bluetooth
  | cellular
  | ethernet
  | mixed
  | none
  | other
  | unknown
  | wifi
  | wimax
deriving DecidableEq

/-- `EffectiveConnectionType` (src/components/GlassCard.tsx line 56):
`'2g' | '3g' | '4g' | 'slow-2g'`. -/
inductive EffectiveType where
  | g2
  | g3
  | g4
  | slow2g
deriving DecidableEq

/-- `NetworkMetrics` (src/components/GlassCard.tsx lines 58-73).  `rtt`
is an integer millisecond estimate; `downlink` is megabits per second
with fractional values (the 0.5 band matters), modeled as a rational. -/
structure NetworkMetrics where
  isOnline : Bool
  connectionType : Option ConnectionType
  effectiveType : Option EffectiveType
  rtt : Option Int
  downlink : Option Rat
  saveData : Option Bool

/-- Quality level banding (src/components/GlassCard.tsx line 79). -/
inductive QualityLevel where
  | excellent
  | good
  | fair
  | poor
  | offline
deriving DecidableEq

/-- `recommendedQuality` (src/components/GlassCard.tsx line 85). -/
inductive RecommendedQuality where
  | high
  | medium
  | low
  | audioOnly
  | none
deriving DecidableEq

/-- `NetworkQuality` (src/components/GlassCard.tsx lines 75-86). -/
structure NetworkQuality where
  score : Int
  level : QualityLevel
  isHighBandwidth : Bool
  isLowLatency : Bool
  recommendedQuality : RecommendedQuality
deriving DecidableEq

/-- The connection-type `switch` (src/components/GlassCard.tsx lines
240-256): note the `'none'` case assigns `score = 0` rather than adding
a delta; `'mixed'`, `'other'`, `'unknown'`, `'wimax'` and a missing
connection object leave the score unchanged. -/
def scoreAfterConnectionType (s : Int) : Option ConnectionType → Int
  | some ConnectionType.ethernet => s + 30
  | some ConnectionType.wifi => s + 25
  | some ConnectionType.cellular => s + 10
  | some ConnectionType.bluetooth => s - 10
  | some ConnectionType.none => 0
  | _ => s

/-- The effective-type `switch` (src/components/GlassCard.tsx lines
259-272). -/
def effectiveTypeDelta : Option EffectiveType → Int
  | some EffectiveType.g4 => 15
  | some EffectiveType.g3 => 5
  | some EffectiveType.g2 => -20
  | some EffectiveType.slow2g => -30
  | Option.none => 0

/-- RTT banding (src/components/GlassCard.tsx lines 275-281), applied
only when `rtt !== null`. -/
def rttDelta : Option Int → Int
  | Option.none => 0
  | some r =>
    if r < 50 then 10
    else if r < 100 then 5
    else if r < 300 then 0
    else if r < 500 then -10
    else -20

/-- Downlink banding (src/components/GlassCard.tsx lines 284-290),
applied only when `downlink !== null`. -/
def downlinkDelta : Option Rat → Int
  | Option.none => 0
  | some d =>
    if 10 ≤ d then 10
    else if 5 ≤ d then 5
    else if 1 ≤ d then 0
    else if (0.5 : Rat) ≤ d then -10
    else -20

/-- The save-data penalty (src/components/GlassCard.tsx lines 293-295):
`if (metrics.saveData)` — null and false are falsy. -/
def saveDataDelta : Option Bool → Int
  | some true => -15
  | _ => 0

/-- The unclamped score: base 50 plus the deltas in source order. -/
def rawScore (m : NetworkMetrics) : Int :=
  scoreAfterConnectionType 50 m.connectionType + effectiveTypeDelta m.effectiveType +
    rttDelta m.rtt + downlinkDelta m.downlink + saveDataDelta m.saveData

/-- `score = Math.max(0, Math.min(100, score))` (src/components/
GlassCard.tsx line 298). -/
def clampScore (s : Int) : Int := max 0 (min 100 s)

/-- The level banding on the clamped score (src/components/GlassCard.tsx
lines 301-306). -/
def levelOf (s : Int) : QualityLevel :=
  if s ≥ 80 then QualityLevel.excellent
  else if s ≥ 60 then QualityLevel.good
  else if s ≥ 40 then QualityLevel.fair
  else if s > 0 then QualityLevel.poor
  else QualityLevel.offline

/-- The recommended-quality banding (src/components/GlassCard.tsx lines
313-318). -/
def recommendedOf (s : Int) : RecommendedQuality :=
  if s ≥ 80 then RecommendedQuality.high
  else if s ≥ 60 then RecommendedQuality.medium
  else if s ≥ 40 then RecommendedQuality.low
  else if s > 0 then RecommendedQuality.audioOnly
  else RecommendedQuality.none

/-- `NetworkMonitor.calculateQuality` (src/components/GlassCard.tsx
lines 225-327). -/
def calculateQuality (m : NetworkMetrics) : NetworkQuality :=
  if m.isOnline = false then
    ⟨0, QualityLevel.offline, false, false, RecommendedQuality.none⟩
  else
    ⟨clampScore (rawScore m), levelOf (clampScore (rawScore m)),
      decide (60 ≤ clampScore (rawScore m)) &&
        (match m.downlink with
          | some d => decide ((1 : Rat) ≤ d)
          | Option.none => false),
      decide (60 ≤ clampScore (rawScore m)) &&
        (match m.rtt with
          | some r => decide (r < 200)
          | Option.none => false),
      recommendedOf (clampScore (rawScore m))⟩

/-- Modelled from the claim's words: the level is banded as excellent
for score ≥ 80, good for ≥ 60, fair for ≥ 40, poor for > 0, else
offline — stated separately from the code's `levelOf` to compare the
two. -/
def levelBandSpec (s : Int) : QualityLevel :=
  if 80 ≤ s then QualityLevel.excellent
  else if 60 ≤ s then QualityLevel.good
  else if 40 ≤ s then QualityLevel.fair
  else if 0 < s then QualityLevel.poor
  else QualityLevel.offline

end NetMon

/-- C9: for every metrics combination the computed quality score lies in
[0, 100]; `isOnline: false` unconditionally yields score 0 and level
offline (and no capabilities) regardless of every other signal; and
online, the level is exactly the claimed banding of the score. -/
theorem c9_quality_score_bounded :
    (∀ m : NetMon.NetworkMetrics,
        0 ≤ (NetMon.calculateQuality m).score ∧
        (NetMon.calculateQuality m).score ≤ 100) ∧
    (∀ m : NetMon.NetworkMetrics, m.isOnline = false →
        NetMon.calculateQuality m =
          ⟨0, NetMon.QualityLevel.offline, false, false,
            NetMon.RecommendedQuality.none⟩) ∧
    (∀ m : NetMon.NetworkMetrics,
        (NetMon.calculateQuality m).level =
          NetMon.levelBandSpec (NetMon.calculateQuality m).score) := by
  refine ⟨?_, ?_, ?_⟩
  · intro m
    by_cases h : m.isOnline = false
    · simp [NetMon.calculateQuality, h]
    · simp only [NetMon.calculateQuality, if_neg h, NetMon.clampScore]
      constructor
      · exact le_max_left 0 _
      · exact max_le (by norm_num) (min_le_left _ _)
  · intro m h
    simp [NetMon.calculateQuality, h]
  · intro m
    by_cases h : m.isOnline = false
    · unfold NetMon.calculateQuality
      rw [if_pos h]
      rfl
    · unfold NetMon.calculateQuality
      rw [if_neg h]
      rfl

/-- C9 witness: a fully loaded offline sample still scores 0/offline;
and the banding holds at a concrete online sample. -/
theorem c9_quality_score_bounded_witness :
    NetMon.calculateQuality
        ⟨false, some NetMon.ConnectionType.ethernet, some NetMon.EffectiveType.g4,
          some 10, some 100, some false⟩ =
      ⟨0, NetMon.QualityLevel.offline, false, false, NetMon.RecommendedQuality.none⟩ :=
  c9_quality_score_bounded.2.1 _ rfl
